import Mathlib

/-!
Verification of the ipapp JSON-RPC engine specification against the code.

The discovery generator is embedded from
src/ipapp/rpc/jsonrpc/openrpc/discover.py.  The request dispatcher,
parameter binder and legacy wire formats are modelled from the
specification, because the executor module itself is not part of the
provided sources (only its tests are).
-/

namespace Ipapp

/-- Shallow JSON value model: wire payloads, schemas and discovery documents
are represented as values of this type. -/
inductive Json where
  | null : Json
  | bool : Bool → Json
  | num : Int → Json
  | str : String → Json
  | arr : List Json → Json
  | obj : List (String × Json) → Json
deriving Repr

/-- Association list lookup by string key, mirroring a Python dict lookup
(keys are unique in all uses). -/
def lookupA {α : Type} : List (String × α) → String → Option α
  | [], _ => none
  | (k, v) :: rest, key => if k == key then some v else lookupA rest key

/-- Field access on a JSON object; `none` on other shapes or a missing key. -/
def Json.getKey (j : Json) (k : String) : Option Json :=
  match j with
  | Json.obj fields => lookupA fields k
  | _ => none

/-- Deterministic rendering of a JSON value to a byte string, used to state
byte-level identity of discovery documents. -/
def Json.render : Json → String
  | Json.null => "null"
  | Json.bool b => if b then "true" else "false"
  | Json.num n => toString n
  | Json.str s => "\"" ++ s ++ "\""
  | Json.arr l => "[" ++ String.intercalate "," (renderList l) ++ "]"
  | Json.obj l => "\x7b" ++ String.intercalate "," (renderFields l) ++ "\x7d"
where
  /-- Renders the elements of a JSON array. -/
  renderList : List Json → List String
    | [] => []
    | x :: xs => Json.render x :: renderList xs
  /-- Renders the fields of a JSON object. -/
  renderFields : List (String × Json) → List String
    | [] => []
    | (k, v) :: xs => ("\"" ++ k ++ "\":" ++ Json.render v) :: renderFields xs

/-! ## Discovery generator (embedded from discover.py) -/

/-- Identity of a structured (pydantic) model type as the name-collision
machinery of discover.py sees it: the class object identity (`mid`), its
`__module__`, its `__name__` and its optional `__config__.title`.  Field
structure is irrelevant to naming and is kept separately. -/
structure MRef where
  mid : Nat
  module : String
  name : String
  title : Option String
deriving DecidableEq, Repr

/-- Replaces every character outside `[a-zA-Z0-9.\-_]` with an underscore,
embedding the `re.sub` call of discover.py lines 83 and 159. -/
def sanitize (s : String) : String :=
  String.mk (s.data.map (fun c =>
    if c.isAlphanum || c == '.' || c == '-' || c == '_' then c else '_'))

/-- Replaces every dot with two underscores (the `.replace(".", "__")` of
discover.py line 150, written at the character-list level so that it
evaluates inside the kernel). -/
def repDots : List Char → List Char
  | [] => []
  | c :: rest => if c = '.' then '_' :: '_' :: repDots rest else c :: repDots rest

/-- Embeds `_get_long_model_name` (discover.py lines 149-150):
`f"{model.__module__}__{model.__name__}".replace(".", "__")`. -/
def getLongModelName (m : MRef) : String :=
  String.mk (repDots (m.module ++ "__" ++ m.name).data)

/-- Python-dict insertion into an association list: an existing key keeps its
position and is overwritten, a new key is appended. -/
def dinsert {α : Type} : List (String × α) → String → α → List (String × α)
  | [], k, v => [(k, v)]
  | (k1, v1) :: rest, k, v =>
    if k1 == k then (k, v) :: rest else (k1, v1) :: dinsert rest k v

/-- Python `dict.pop`: removes the entry with the given key. -/
def dpop {α : Type} : List (String × α) → String → List (String × α)
  | [], _ => []
  | (k1, v1) :: rest, k =>
    if k1 == k then rest else (k1, v1) :: dpop rest k

/-- State of the `ModelDict` object of discover.py (lines 74-97): `entries`
are the items of the defaultdict itself (model . assigned schema name),
`nmm` is its `name_model_map` attribute and `conflicting` its
`conflicting_names` set. -/
structure ModelDict where
  entries : List (MRef × String)
  nmm : List (String × MRef)
  conflicting : List String
deriving DecidableEq, Repr

/-- The freshly constructed `ModelDict()` of discover.py line 29. -/
def emptyMD : ModelDict := ⟨[], [], []⟩

/-- Lookup in the defaultdict items by model identity. -/
def lookupM : List (MRef × String) → MRef → Option String
  | [], _ => none
  | (k, v) :: rest, m => if k == m then some v else lookupM rest m

/-- Embeds a lookup `model_name_map[model]` on the `ModelDict` of
discover.py: a hit returns the stored name; a miss runs `__missing__`
(lines 81-96) verbatim, including its quirks: the first two branches
mutate `name_model_map` but fall off the function (returning Python
`None`, modelled as `none`) and never store into the dict itself, and the
final branch stores the short name into the dict without recording it in
`name_model_map`. -/
def mdGet (d : ModelDict) (m : MRef) : Option String × ModelDict :=
  match lookupM d.entries m with
  | some n => (some n, d)
  | none =>
    let mn := sanitize (m.title.getD m.name)
    if d.conflicting.contains mn then
      (none, { d with nmm := dinsert d.nmm (getLongModelName m) m })
    else
      match lookupA d.nmm mn with
      | some cm =>
        (none, { d with
          conflicting := d.conflicting ++ [mn],
          nmm := dinsert (dinsert (dpop d.nmm mn) (getLongModelName cm) cm)
                   (getLongModelName m) m })
      | none =>
        (some mn, { d with entries := d.entries ++ [(m, mn)] })

/-- One step of the loop body of `_get_model_name_map` (discover.py lines
157-171), the module-level collision routine whose policy the spec
describes: state is `(name_model_map, conflicting_names)`. -/
def gmnmStep (st : List (String × MRef) × List String) (m : MRef) :
    List (String × MRef) × List String :=
  let mn := sanitize (m.title.getD m.name)
  if st.2.contains mn then
    (dinsert st.1 (getLongModelName m) m, st.2)
  else
    match lookupA st.1 mn with
    | some cm =>
      (dinsert (dinsert (dpop st.1 mn) (getLongModelName cm) cm)
         (getLongModelName m) m,
       st.2 ++ [mn])
    | none => (dinsert st.1 mn m, st.2)

/-- Embeds `_get_model_name_map` (discover.py lines 152-172): folds the loop
body over the models and inverts the resulting map, yielding
model-to-name pairs. -/
def getModelNameMap (models : List MRef) : List (MRef × String) :=
  ((models.foldl gmnmStep ([], [])).1).map (fun kv => (kv.2, kv.1))

/-- Field type of a procedure parameter or result, as the discovery
generator distinguishes them: primitive annotated types, `Any`
(no constraint), `None` and references to structured model types. -/
inductive FTyp where
  | intT : FTyp
  | strT : FTyp
  | boolT : FTyp
  | anyT : FTyp
  | noneT : FTyp
  | ref : MRef → FTyp
deriving DecidableEq, Repr

/-- One declared parameter of a registered procedure: its name, its
annotated type (`none` when the source carries no type hint, which
`_get_field_definitions` maps to `Any`) and whether a default is
declared. -/
structure ParamDef where
  pname : String
  ptyp : Option FTyp
  hasDefault : Bool
deriving Repr

/-- A procedure as the discovery generator reads it: its `__rpc_name__`,
the parameters extracted by `inspect.signature`, its return type hint
(`none` when absent, `some FTyp.noneT` for an explicit `-> None`) and
the optional `__rpc_response_model__` override. -/
structure RpcFn where
  rpc_name : String
  params : List ParamDef
  retTyp : Option FTyp
  respOverride : Option FTyp
deriving Repr

/-- A handler object: the attribute table holding the rpc-decorated
callables in registration (declaration) order, plus the fields read for
the info block (`__version__` and the parsed docstring parts). -/
structure Handler where
  attrs : List (String × RpcFn)
  version : Option String
  docShort : Option String
  docLong : Option String
deriving Repr

/-- Boolean lexicographic comparison on character lists, matching the
string ordering Python `sorted`/`dir` uses (code-point order). -/
def strLtB : List Char → List Char → Bool
  | [], [] => false
  | [], _ :: _ => true
  | _ :: _, [] => false
  | a :: as, b :: bs => if a < b then true else if b < a then false else strLtB as bs

/-- Insertion into a list sorted by attribute name. -/
def insAttr {α : Type} (x : String × α) : List (String × α) → List (String × α)
  | [] => [x]
  | y :: ys => if strLtB x.1.data y.1.data then x :: y :: ys else y :: insAttr x ys

/-- The enumeration order of `dir(handler)`: attribute names in ascending
code-point order. -/
def dirSort {α : Type} (l : List (String × α)) : List (String × α) :=
  l.foldr insAttr []

/-- Embeds `_get_methods` (discover.py lines 100-111): iterates the handler
attributes in `dir` order, collecting the rpc-decorated callables keyed
by attribute name and raising `UserWarning` when a `__rpc_name__`
equals an attribute key already collected. -/
def getMethodsGo : List (String × RpcFn) → List (String × RpcFn) →
    Except String (List (String × RpcFn))
  | [], acc => Except.ok acc
  | (k, fn) :: rest, acc =>
    if (acc.map (fun kv => kv.1)).contains fn.rpc_name then
      Except.error ("Method " ++ fn.rpc_name ++ " duplicated")
    else getMethodsGo rest (acc ++ [(k, fn)])

/-- The method table of `_get_methods`, in `dir(handler)` order. -/
def getMethods (h : Handler) : Except String (List (String × RpcFn)) :=
  getMethodsGo (dirSort h.attrs) []

/-- Default title pydantic gives a field schema: the capitalized field
name. -/
def fieldTitle (s : String) : String := s.capitalize

/-- Renders the schema of one model field of the given type, threading the
`ModelDict`, as pydantic `model_process_schema` does when discover.py
calls it: primitives render inline with their title, `Any` renders with
no type constraint, and a structured model renders as a reference
pointer whose name is obtained from `model_name_map[model]` -- which
registers the model through `ModelDict.__missing__`.  When that lookup
yields Python `None`, building the pointer string raises (modelled as
`Except.error`). -/
def renderTyp (title : String) (t : FTyp) (d : ModelDict) :
    Except String (Json × ModelDict) :=
  match t with
  | FTyp.intT => Except.ok (Json.obj [("title", Json.str title), ("type", Json.str "integer")], d)
  | FTyp.strT => Except.ok (Json.obj [("title", Json.str title), ("type", Json.str "string")], d)
  | FTyp.boolT => Except.ok (Json.obj [("title", Json.str title), ("type", Json.str "boolean")], d)
  | FTyp.anyT => Except.ok (Json.obj [("title", Json.str title)], d)
  | FTyp.noneT => Except.ok (Json.obj [("title", Json.str title)], d)
  | FTyp.ref m =>
    match mdGet d m with
    | (some n, d1) =>
      Except.ok (Json.obj [("$ref", Json.str ("#/components/schemas/" ++ n))], d1)
    | (none, _) => Except.error "TypeError"

/-- Renders the ContentDescriptor list for the parameters of one method
(discover.py lines 219-245): each parameter yields
`(name, required := no default, schema)` with the schema taken from the
request-params model, registering referenced structured types in field
order. -/
def renderParams (d : ModelDict) (ps : List ParamDef) :
    Except String (List Json × ModelDict) :=
  match ps with
  | [] => Except.ok ([], d)
  | p :: rest =>
    match renderTyp (fieldTitle p.pname) (p.ptyp.getD FTyp.anyT) d with
    | Except.error e => Except.error e
    | Except.ok (s, d1) =>
      match renderParams d1 rest with
      | Except.error e => Except.error e
      | Except.ok (rest1, d2) =>
        Except.ok (Json.obj [("name", Json.str p.pname),
                             ("required", Json.bool (!p.hasDefault)),
                             ("schema", s)] :: rest1, d2)

/-- Renders the result schema of one method (discover.py lines 247-265):
the response model is the `__rpc_response_model__` override when
declared, else `Any` when the return annotation is absent, else the
annotation itself; a response model of `None` short-circuits to an
empty schema, anything else renders as the schema of a `result` field
of that type. -/
def renderResult (d : ModelDict) (fn : RpcFn) : Except String (Json × ModelDict) :=
  match (match fn.respOverride with
         | some t => some t
         | none =>
           match fn.retTyp with
           | none => some FTyp.anyT
           | some FTyp.noneT => none
           | some t => some t) with
  | none => Except.ok (Json.obj [], d)
  | some t => renderTyp "Result" t d

/-- Embeds `_get_method` (discover.py lines 189-279) for the fields the
claims concern: the method name, the parameter ContentDescriptors and
the result ContentDescriptor (`required` is always true there, line
271). -/
def getMethod (d : ModelDict) (fn : RpcFn) : Except String (Json × ModelDict) :=
  match renderParams d fn.params with
  | Except.error e => Except.error e
  | Except.ok (pjs, d1) =>
    match renderResult d1 fn with
    | Except.error e => Except.error e
    | Except.ok (rs, d2) =>
      Except.ok (Json.obj [("name", Json.str fn.rpc_name),
                           ("params", Json.arr pjs),
                           ("result", Json.obj [("name", Json.str "result"),
                                                ("required", Json.bool true),
                                                ("schema", rs)])], d2)

/-- Embeds `_get_methods_models` (discover.py lines 114-119): renders each
method in table order, threading the `ModelDict`. -/
def getMethodsModels (ms : List (String × RpcFn)) (d : ModelDict) :
    Except String (List Json × ModelDict) :=
  match ms with
  | [] => Except.ok ([], d)
  | (_, fn) :: rest =>
    match getMethod d fn with
    | Except.error e => Except.error e
    | Except.ok (mj, d1) =>
      match getMethodsModels rest d1 with
      | Except.error e => Except.error e
      | Except.ok (mjs, d2) => Except.ok (mj :: mjs, d2)

/-- Top-level schema pydantic emits for a structured model into the schema
table (title and object type; the nested property list is not examined
by any claim and is elided). -/
def topSchema (m : MRef) : Json :=
  Json.obj [("title", Json.str (m.title.getD m.name)), ("type", Json.str "object")]

/-- The `openrpc` version constant of discover.py line 19. -/
def OPENRPC_VERSION : String := "1.2.4"

/-- Embeds `discover` (discover.py lines 22-71), returning the document
together with the final `ModelDict`: methods are rendered with a fresh
`ModelDict`, the schema table maps each assigned name to its model
schema (a dict write, so a duplicated name is overwritten), the info
block is built from `__version__` and the docstring, and the
`components` key is attached only when the schema table is
non-empty. -/
def discoverCore (h : Handler) : Except String (Json × ModelDict) :=
  match getMethods h with
  | Except.error e => Except.error e
  | Except.ok ms =>
    match getMethodsModels ms emptyMD with
    | Except.error e => Except.error e
    | Except.ok (mjs, d) =>
      let schemas := d.entries.foldl (fun acc kv => dinsert acc kv.2 (topSchema kv.1)) []
      let infoFields :=
        [("title", Json.str (h.docShort.getD ""))] ++
        [("version", Json.str (h.version.getD "0"))] ++
        (match h.docLong with
         | some s => [("description", Json.str s)]
         | none => [])
      let base := [("openrpc", Json.str OPENRPC_VERSION),
                   ("info", Json.obj infoFields),
                   ("methods", Json.arr mjs)]
      let fields :=
        if schemas.length > 0 then
          base ++ [("components", Json.obj [("schemas", Json.obj schemas)])]
        else base
      Except.ok (Json.obj fields, d)

/-- The discovery document alone. -/
def discover (h : Handler) : Except String Json :=
  (discoverCore h).map (fun p => p.1)

/-- The `name` field of a rendered method descriptor, when it is a
string. -/
def nameOfMethodJson (m : Json) : Option String :=
  match m.getKey "name" with
  | some (Json.str s) => some s
  | _ => none

/-- The names of the methods listed in a discovery document, in document
order. -/
def methodNameStrs (doc : Json) : Option (List String) :=
  match doc.getKey "methods" with
  | some (Json.arr l) => some (l.filterMap nameOfMethodJson)
  | _ => none

/-! ## Stateful discovery generator

The pipeline above treats each model class's `__config__.title` as fixed.
`_get_method` in fact mutates it: `_fix_model_name` (discover.py lines
126-131, called at lines 226 and 253) persistently sets the title of a
model class whose `__name__` collides with the synthesized
`{Camel}Response` name, and that write survives across calls to
`discover`.  The definitions below embed the same generator once more
with that mutable state made explicit: a title map from class identity
to its current `__config__.title`, threaded through generation and
returned alongside the document.  (Of the two `_fix_model_name` call
sites only the response one, line 253, can fire without a request-model
override: a freshly created request-params model is already named
`{Camel}RequestParams`, which never equals `{Camel}Request`.) -/

/-- Current `__config__.title` of each model class, keyed by class
identity; a missing key means the title is unset. -/
abbrev TitleMap := List (Nat × String)

/-- Title lookup by class identity. -/
def lookupT : TitleMap → Nat → Option String
  | [], _ => none
  | (k, v) :: rest, i => if k == i then some v else lookupT rest i

/-- Python attribute write: an existing key keeps its position and is
overwritten, a new key is appended. -/
def tinsert : TitleMap → Nat → String → TitleMap
  | [], i, t => [(i, t)]
  | (k, v) :: rest, i, t =>
    if k == i then (i, t) :: rest else (k, v) :: tinsert rest i t

/-- The model class as the generator currently sees it: its stored title
overridden by any `_fix_model_name` write recorded in the title map
(`ModelDict.__missing__` reads `__config__.title or __name__` at
discover.py line 82). -/
def currentView (ts : TitleMap) (m : MRef) : MRef :=
  { m with title := match lookupT ts m.mid with
                    | some t => some t
                    | none => m.title }

/-- Dict lookup by class identity alone: the Python `ModelDict` keys on the
class object, so a title change never changes the key. -/
def lookupMid : List (MRef × String) → Nat → Option String
  | [], _ => none
  | (k, v) :: rest, i => if k.mid == i then some v else lookupMid rest i

/-- Embeds `_snake_to_camel` (discover.py lines 122-123):
`value.title().replace("_", "")`, with Python `str.title` starting a new
word after every non-alphabetic character. -/
def titleCase : List Char → Bool → List Char
  | [], _ => []
  | c :: rest, atStart =>
    if c.isAlpha then
      (if atStart then c.toUpper else c.toLower) :: titleCase rest false
    else c :: titleCase rest true

/-- The camel-cased method name used to synthesize model names. -/
def snakeToCamel (s : String) : String :=
  String.mk ((titleCase s.data true).filter (fun c => c != '_'))

/-- The title write `_get_method` performs for one procedure, when any
(discover.py lines 247-253): the response model is the declared override
or the return annotation; when that is a model class whose `__name__`
equals `{Camel}Response`, its `__config__.title` is set to
`{Camel}ResponseResult`.  The condition reads only the immutable
`__name__`, so the write is independent of the current title state. -/
def writeOf (fn : RpcFn) : Option (Nat × String) :=
  match (match fn.respOverride with
         | some t => some t
         | none =>
           match fn.retTyp with
           | none => some FTyp.anyT
           | some FTyp.noneT => none
           | some t => some t) with
  | some (FTyp.ref m) =>
    if m.name == snakeToCamel fn.rpc_name ++ "Response" then
      some (m.mid, snakeToCamel fn.rpc_name ++ "ResponseResult")
    else none
  | _ => none

/-- Embeds the `_fix_model_name` call of discover.py line 253: applies the
procedure's title write, if any, to the persistent title state. -/
def fixResponseTitle (ts : TitleMap) (fn : RpcFn) : TitleMap :=
  match writeOf fn with
  | some it => tinsert ts it.1 it.2
  | none => ts

/-- Stateful variant of `mdGet`: the dict is keyed by class identity and
the assigned name is computed from the class's current title. -/
def mdGetS (ts : TitleMap) (d : ModelDict) (m : MRef) : Option String × ModelDict :=
  match lookupMid d.entries m.mid with
  | some n => (some n, d)
  | none =>
    let mv := currentView ts m
    let mn := sanitize (mv.title.getD mv.name)
    if d.conflicting.contains mn then
      (none, { d with nmm := dinsert d.nmm (getLongModelName mv) mv })
    else
      match lookupA d.nmm mn with
      | some cm =>
        (none, { d with
          conflicting := d.conflicting ++ [mn],
          nmm := dinsert (dinsert (dpop d.nmm mn) (getLongModelName cm) cm)
                   (getLongModelName mv) mv })
      | none =>
        (some mn, { d with entries := d.entries ++ [(mv, mn)] })

/-- Stateful variant of `renderTyp`: reference pointers are rendered under
the referenced class's current title. -/
def renderTypS (ts : TitleMap) (title : String) (t : FTyp) (d : ModelDict) :
    Except String (Json × ModelDict) :=
  match t with
  | FTyp.intT => Except.ok (Json.obj [("title", Json.str title), ("type", Json.str "integer")], d)
  | FTyp.strT => Except.ok (Json.obj [("title", Json.str title), ("type", Json.str "string")], d)
  | FTyp.boolT => Except.ok (Json.obj [("title", Json.str title), ("type", Json.str "boolean")], d)
  | FTyp.anyT => Except.ok (Json.obj [("title", Json.str title)], d)
  | FTyp.noneT => Except.ok (Json.obj [("title", Json.str title)], d)
  | FTyp.ref m =>
    match mdGetS ts d m with
    | (some n, d1) =>
      Except.ok (Json.obj [("$ref", Json.str ("#/components/schemas/" ++ n))], d1)
    | (none, _) => Except.error "TypeError"

/-- Stateful variant of `renderParams`. -/
def renderParamsS (ts : TitleMap) (d : ModelDict) (ps : List ParamDef) :
    Except String (List Json × ModelDict) :=
  match ps with
  | [] => Except.ok ([], d)
  | p :: rest =>
    match renderTypS ts (fieldTitle p.pname) (p.ptyp.getD FTyp.anyT) d with
    | Except.error e => Except.error e
    | Except.ok (s, d1) =>
      match renderParamsS ts d1 rest with
      | Except.error e => Except.error e
      | Except.ok (rest1, d2) =>
        Except.ok (Json.obj [("name", Json.str p.pname),
                             ("required", Json.bool (!p.hasDefault)),
                             ("schema", s)] :: rest1, d2)

/-- Stateful variant of `renderResult`. -/
def renderResultS (ts : TitleMap) (d : ModelDict) (fn : RpcFn) :
    Except String (Json × ModelDict) :=
  match (match fn.respOverride with
         | some t => some t
         | none =>
           match fn.retTyp with
           | none => some FTyp.anyT
           | some FTyp.noneT => none
           | some t => some t) with
  | none => Except.ok (Json.obj [], d)
  | some t => renderTypS ts "Result" t d

/-- Stateful variant of `getMethod`, in source order: the parameter model
is rendered first (discover.py line 228), then the `_fix_model_name`
title write fires (line 253), then the response model is rendered (line
261) under the updated state. -/
def getMethodS (ts : TitleMap) (d : ModelDict) (fn : RpcFn) :
    Except String (Json × ModelDict × TitleMap) :=
  match renderParamsS ts d fn.params with
  | Except.error e => Except.error e
  | Except.ok (pjs, d1) =>
    let ts1 := fixResponseTitle ts fn
    match renderResultS ts1 d1 fn with
    | Except.error e => Except.error e
    | Except.ok (rs, d2) =>
      Except.ok (Json.obj [("name", Json.str fn.rpc_name),
                           ("params", Json.arr pjs),
                           ("result", Json.obj [("name", Json.str "result"),
                                                ("required", Json.bool true),
                                                ("schema", rs)])], d2, ts1)

/-- Stateful variant of `_get_methods_models`: threads the dict and the
title state through the methods in table order. -/
def getMethodsModelsS (ms : List (String × RpcFn)) (d : ModelDict) (ts : TitleMap) :
    Except String (List Json × ModelDict × TitleMap) :=
  match ms with
  | [] => Except.ok ([], d, ts)
  | (_, fn) :: rest =>
    match getMethodS ts d fn with
    | Except.error e => Except.error e
    | Except.ok (mj, d1, ts1) =>
      match getMethodsModelsS rest d1 ts1 with
      | Except.error e => Except.error e
      | Except.ok (mjs, d2, ts2) => Except.ok (mj :: mjs, d2, ts2)

/-- Stateful variant of `topSchema`: the schema table is rendered after all
methods, so it reads each class's title as of the end of the pass. -/
def topSchemaS (ts : TitleMap) (m : MRef) : Json :=
  Json.obj [("title", Json.str ((currentView ts m).title.getD m.name)),
            ("type", Json.str "object")]

/-- Stateful variant of `discover`: same document assembly, with the title
state taken in and handed back, mirroring the fact that the Python
`_fix_model_name` writes outlive the call. -/
def discoverCoreS (h : Handler) (ts : TitleMap) :
    Except String (Json × ModelDict × TitleMap) :=
  match getMethods h with
  | Except.error e => Except.error e
  | Except.ok ms =>
    match getMethodsModelsS ms emptyMD ts with
    | Except.error e => Except.error e
    | Except.ok (mjs, d, ts1) =>
      let schemas := d.entries.foldl (fun acc kv => dinsert acc kv.2 (topSchemaS ts1 kv.1)) []
      let infoFields :=
        [("title", Json.str (h.docShort.getD ""))] ++
        [("version", Json.str (h.version.getD "0"))] ++
        (match h.docLong with
         | some s => [("description", Json.str s)]
         | none => [])
      let base := [("openrpc", Json.str OPENRPC_VERSION),
                   ("info", Json.obj infoFields),
                   ("methods", Json.arr mjs)]
      let fields :=
        if schemas.length > 0 then
          base ++ [("components", Json.obj [("schemas", Json.obj schemas)])]
        else base
      Except.ok (Json.obj fields, d, ts1)

/-- One generation: the document together with the title state it leaves
behind. -/
def discoverS (h : Handler) (ts : TitleMap) : Except String (Json × TitleMap) :=
  (discoverCoreS h ts).map (fun p => (p.1, p.2.2))

/-! ## Request dispatcher and parameter binder (modelled from the spec)

The executor module (`JsonRpcExecutor`) is not among the provided source
files; only its tests are.  The definitions below therefore follow the
words of sections 4.2, 4.3 and 7 of the specification, cross-checked
against the expectations recorded in src/tests/test_rpc_json.py. -/

/-- Modelled from the spec: the `rawParams` of a decoded Call (section 3)
-- a positional list, a named map, or absent. -/
inductive Params where
  | byPos : List Json → Params
  | byName : List (String × Json) → Params
  | absent : Params
deriving Repr

/-- Modelled from the spec: one decoded unit of work (section 3).  `id` is
`none` exactly when no id field is present; such a Call is a
notification. -/
structure Call where
  id : Option Json
  method : String
  params : Params
deriving Repr

/-- Modelled from the spec: one ParamSpec of section 3 -- parameter name,
default presence and the default value (type descriptors play no role in
binding). -/
structure PSpec where
  name : String
  hasDefault : Bool
  defaultVal : Json
deriving Repr

/-- Modelled from the spec: the BindError taxonomy of section 4.2. -/
inductive BindError where
  | missing : List String → BindError
  | unexpected : String → BindError
  | tooMany : Nat → Nat → BindError
deriving DecidableEq, Repr

/-- Modelled from the spec: the human-readable BindError texts reused
verbatim in the `info` field (section 4.3 step 4 and the test strings,
including the singular form for one given argument). -/
def bindErrorMsg : BindError → String
  | BindError.missing ns =>
    "Missing " ++ toString ns.length ++ " required argument(s):  " ++
      String.intercalate ", " ns
  | BindError.unexpected n => "Got an unexpected argument: " ++ n
  | BindError.tooMany declared given =>
    "Method takes " ++ toString declared ++ " positional arguments but " ++
      toString given ++ (if given == 1 then " was" else " were") ++ " given"

/-- Modelled from the spec: binding a named map (section 4.2) -- every spec
without a supplied value must have a default, else MissingRequired with
every missing name in declaration order; a supplied key matching no spec
name is Unexpected, reporting the first offender in caller order. -/
def bindNamed (specs : List PSpec) (m : List (String × Json)) :
    Except BindError (List (String × Json)) :=
  let missing := ((specs.filter (fun s => !s.hasDefault && (lookupA m s.name).isNone)).map
    (fun s => s.name))
  if missing.isEmpty then
    match m.find? (fun kv => specs.all (fun s => s.name != kv.1)) with
    | some kv => Except.error (BindError.unexpected kv.1)
    | none =>
      Except.ok (specs.map (fun s => (s.name, (lookupA m s.name).getD s.defaultVal)))
  else Except.error (BindError.missing missing)

/-- Modelled from the spec: binding a positional list (section 4.2) -- the
first `len(list)` specs receive values positionally, the remaining specs
must all have defaults, and a list longer than the spec count is
TooManyPositionalArguments reporting declared arity versus given
count. -/
def bindPos (specs : List PSpec) (l : List Json) :
    Except BindError (List (String × Json)) :=
  if specs.length < l.length then
    Except.error (BindError.tooMany specs.length l.length)
  else
    let missing := (((specs.drop l.length).filter (fun s => !s.hasDefault)).map
      (fun s => s.name))
    if missing.isEmpty then
      Except.ok (((specs.zip l).map (fun sv => (sv.1.name, sv.2))) ++
        ((specs.drop l.length).map (fun s => (s.name, s.defaultVal))))
    else Except.error (BindError.missing missing)

/-- Modelled from the spec: `bind` of section 4.2; absent params bind like
an empty named map. -/
def bind (specs : List PSpec) : Params → Except BindError (List (String × Json))
  | Params.byPos l => bindPos specs l
  | Params.byName m => bindNamed specs m
  | Params.absent => bindNamed specs []

/-- Modelled from the spec: the discriminated outcome of invoking a
procedure (sections 4.3 step 5 and 7) -- a normal return, a generic
raised error with a one-element payload, a generic raised error with a
two-element payload (message, data), or a declared error variant. -/
inductive InvokeResult where
  | ok : Json → InvokeResult
  | raised : String → InvokeResult
  | raisedData : String → Json → InvokeResult
  | declared : Int → String → Option Json → InvokeResult

/-- Modelled from the spec: a registered procedure -- its ParamSpecs and
its behavior on a bound argument set. -/
structure Proc where
  specs : List PSpec
  run : List (String × Json) → InvokeResult

/-- Modelled from the spec: the procedure registry, keyed by public name in
registration order. -/
structure Registry where
  procs : List (String × Proc)

/-- Modelled from the spec: the per-Call outcome before serialization --
either a success value or an error payload (code, message, optional
data). -/
inductive CallResult where
  | okr : Json → CallResult
  | err : Int → String → Option Json → CallResult

/-- Modelled from the spec: resolve, bind and invoke one Call (section 4.3
steps 3-5): unknown method is -32601, a BindError is -32602 with the
verbatim message inside `data.info`, a generic raised error is -32000
with the second positional payload element as data, and a declared
variant keeps its own code, message and data. -/
def runCall (reg : Registry) (c : Call) : CallResult :=
  match lookupA reg.procs c.method with
  | none => CallResult.err (-32601) "Method not found" none
  | some p =>
    match bind p.specs c.params with
    | Except.error be =>
      CallResult.err (-32602) "Invalid params"
        (some (Json.obj [("info", Json.str (bindErrorMsg be))]))
    | Except.ok args =>
      match p.run args with
      | InvokeResult.ok v => CallResult.okr v
      | InvokeResult.raised m => CallResult.err (-32000) m none
      | InvokeResult.raisedData m dd => CallResult.err (-32000) m (some dd)
      | InvokeResult.declared code m dd => CallResult.err code m dd

/-- Modelled from the spec: the error member of a current-format envelope,
with `data` omitted when absent (section 4.3 step 6). -/
def errObj (code : Int) (msg : String) (dd : Option Json) : Json :=
  Json.obj ([("code", Json.num code), ("message", Json.str msg)] ++
    (match dd with
     | some v => [("data", v)]
     | none => []))

/-- Modelled from the spec: the current-format response envelope for a
given id (section 4.3 step 6). -/
def currentResponse (i : Json) (r : CallResult) : Json :=
  match r with
  | CallResult.okr v =>
    Json.obj [("jsonrpc", Json.str "2.0"), ("id", i), ("result", v)]
  | CallResult.err code m dd =>
    Json.obj [("jsonrpc", Json.str "2.0"), ("id", i), ("error", errObj code m dd)]

/-- Modelled from the spec: the single fatal Invalid Request envelope
(id null, code -32600). -/
def invalidRequestResponse : Json :=
  currentResponse Json.null (CallResult.err (-32600) "Invalid Request" none)

/-- Modelled from the spec: classification of a params field -- an array is
positional, an object named, anything else malformed. -/
def decodeParams : Option Json → Option Params
  | none => some Params.absent
  | some (Json.arr l) => some (Params.byPos l)
  | some (Json.obj m) => some (Params.byName m)
  | some _ => none

/-- Modelled from the spec: the result of shape-detecting one batch element
(section 4.3 step 2) -- a well-formed current-format Call, or an invalid
element. -/
inductive Elem where
  | call : Call → Elem
  | invalid : Elem

/-- Modelled from the spec: current-format shape detection of one element
(section 4.3 step 2): the element must be an object carrying
`jsonrpc:"2.0"` and a string `method`; `params` and `id` are
optional. -/
def parseElement (j : Json) : Elem :=
  match j with
  | Json.obj fields =>
    match lookupA fields "jsonrpc", lookupA fields "method" with
    | some (Json.str "2.0"), some (Json.str m) =>
      match decodeParams (lookupA fields "params") with
      | some ps => Elem.call ⟨lookupA fields "id", m, ps⟩
      | none => Elem.invalid
    | _, _ => Elem.invalid
  | _ => Elem.invalid

/-- Modelled from the spec: handling of one batch element -- an invalid
element becomes an error Outcome with id null, a notification is
executed without producing an entry, and any other Call yields its
serialized Outcome (sections 4.3 steps 2-6). -/
def handleElement (reg : Registry) (j : Json) : Option Json :=
  match parseElement j with
  | Elem.invalid => some invalidRequestResponse
  | Elem.call c =>
    match c.id with
    | none => none
    | some i => some (currentResponse i (runCall reg c))

/-- Modelled from the spec: batch execution -- one Outcome per
non-notification Call, in decoded order (section 3, Outcome). -/
def execBatch (reg : Registry) (es : List Json) : List Json :=
  es.filterMap (handleElement reg)

/-- Modelled from the spec: whether an element is a well-formed
current-format notification (a Call with no id). -/
def isNotifElem (j : Json) : Bool :=
  match parseElement j with
  | Elem.call c => c.id.isNone
  | Elem.invalid => false

/-- Modelled from the spec: the legacy v2 response envelope (section 4.3
step 6): success is `(code 0, message OK, result)`, an error carries its
data under the `details` key, omitted when there is no data. -/
def serializeLegacyV2 : CallResult → Json
  | CallResult.okr v =>
    Json.obj [("code", Json.num 0), ("message", Json.str "OK"), ("result", v)]
  | CallResult.err code m dd =>
    Json.obj ([("code", Json.num code), ("message", Json.str m)] ++
      (match dd with
       | some v => [("details", v)]
       | none => []))

/-- Modelled from the spec: the legacy v1 response envelope (section 4.3
step 6): success merges a mapping result flat after `(code 0, message
OK)` and emits only those two fields for a `none` result; an error
merges its mapping data flat after code and message. -/
def serializeLegacyV1 : CallResult → Json
  | CallResult.okr (Json.obj fs) =>
    Json.obj ([("code", Json.num 0), ("message", Json.str "OK")] ++ fs)
  | CallResult.okr _ =>
    Json.obj [("code", Json.num 0), ("message", Json.str "OK")]
  | CallResult.err code m dd =>
    Json.obj ([("code", Json.num code), ("message", Json.str m)] ++
      (match dd with
       | some (Json.obj fs) => fs
       | _ => []))

/-- Modelled from the spec: the whole dispatch of one decoded top-level
payload (section 4.3): an array is a current-format batch (empty arrays
are Invalid Request; a batch whose outcomes are all suppressed yields an
empty body, `none`); an object is a single current-format Call when it
parses as one, an Invalid Request when it carries a `jsonrpc` key but
does not parse, and otherwise a legacy call -- legacy v2 when a
top-level `params` key is present, legacy v1 when not, where every
non-method key is a named parameter; any other shape is Invalid
Request. -/
def execTop (reg : Registry) (j : Json) : Option Json :=
  match j with
  | Json.arr es =>
    if es.isEmpty then some invalidRequestResponse
    else
      match execBatch reg es with
      | [] => none
      | rs => some (Json.arr rs)
  | Json.obj fields =>
    match parseElement (Json.obj fields) with
    | Elem.call c =>
      match c.id with
      | none => none
      | some i => some (currentResponse i (runCall reg c))
    | Elem.invalid =>
      if (lookupA fields "jsonrpc").isSome then some invalidRequestResponse
      else
        match lookupA fields "method" with
        | some (Json.str m) =>
          match lookupA fields "params" with
          | some pj =>
            match decodeParams (some pj) with
            | some ps => some (serializeLegacyV2 (runCall reg ⟨none, m, ps⟩))
            | none => some invalidRequestResponse
          | none =>
            some (serializeLegacyV1 (runCall reg
              ⟨none, m, Params.byName (fields.filter (fun kv => kv.1 != "method"))⟩))
        | _ => some invalidRequestResponse
  | _ => some invalidRequestResponse

/-! ## Concrete instances used by counterexamples and witnesses -/

/-- Two distinct structured types sharing the sanitized display name
`User`: distinct class identities from distinct modules. -/
def mA : MRef := ⟨0, "mod_a", "User", none⟩

/-- Second structured type named `User`, from another module. -/
def mB : MRef := ⟨1, "mod_b", "User", none⟩

/-- A procedure `echo(text: str) -> str`, registered first. -/
def fnEcho : RpcFn := ⟨"echo", [⟨"text", some FTyp.strT, false⟩], some FTyp.strT, none⟩

/-- A procedure `add_user(id: int) -> int`, registered second. -/
def fnAddU : RpcFn := ⟨"add_user", [⟨"id", some FTyp.intT, false⟩], some FTyp.intT, none⟩

/-- A handler whose registration order is `echo` then `add_user`; `dir`
order is the reverse. -/
def hReg : Handler := ⟨[("echo", fnEcho), ("add_user", fnAddU)], some "1.0", none, none⟩

/-- A procedure `get_user(id: int) -> User` whose result is a structured
type. -/
def fnGetUser : RpcFn := ⟨"get_user", [⟨"id", some FTyp.intT, false⟩], some (FTyp.ref mA), none⟩

/-- A handler exposing one method that references a structured type. -/
def hUser : Handler := ⟨[("get_user", fnGetUser)], none, none, none⟩

/-- A procedure with no return annotation at all. -/
def fnAbsentRet : RpcFn := ⟨"noop", [], none, none⟩

/-- A procedure with a declared `-> None` return annotation. -/
def fnNoneRet : RpcFn := ⟨"noop2", [], some FTyp.noneT, none⟩

/-- A parameterless procedure raising a generic error with a two-element
payload, as in test_error_with_data. -/
def pErr : Proc := ⟨[], fun _ => InvokeResult.raisedData "Ex" (Json.str "some data")⟩

/-- Registry exposing only `err`. -/
def regErr : Registry := ⟨[("err", pErr)]⟩

/-- A current-format call of `err` with id 10. -/
def cErr : Call := ⟨some (Json.num 10), "err", Params.byName []⟩

/-- A two-argument procedure, as in test_clt_single_err_params. -/
def pSum : Proc :=
  ⟨[⟨"a", false, Json.null⟩, ⟨"b", false, Json.null⟩], fun _ => InvokeResult.ok Json.null⟩

/-- Registry exposing only `sum`. -/
def regSum : Registry := ⟨[("sum", pSum)]⟩

/-- A call of `sum` with three positional arguments. -/
def cSum : Call := ⟨some (Json.num 10), "sum", Params.byPos [Json.num 1, Json.num 2, Json.num 3]⟩

/-- The echo procedure of the tests: returns `echo: ` followed by the
`text` argument. -/
def pEcho : Proc :=
  ⟨[⟨"text", false, Json.null⟩],
   fun args =>
     match lookupA args "text" with
     | some (Json.str t) => InvokeResult.ok (Json.str ("echo: " ++ t))
     | _ => InvokeResult.ok Json.null⟩

/-- Registry exposing only `echo`. -/
def regEcho : Registry := ⟨[("echo", pEcho)]⟩

/-- A current-format notification (no id) calling `echo`. -/
def jNotif1 : Json :=
  Json.obj [("jsonrpc", Json.str "2.0"), ("method", Json.str "echo"),
            ("params", Json.obj [("text", Json.str "1")])]

/-- A current-format notification calling an unknown method. -/
def jNotif2 : Json :=
  Json.obj [("jsonrpc", Json.str "2.0"), ("method", Json.str "nosuch"),
            ("params", Json.obj [])]

/-- The legacy v2 request of test_legacy_v2_format_success: a top-level
`params` key and no `jsonrpc` key. -/
def fields8 : List (String × Json) :=
  [("method", Json.str "echo"), ("params", Json.obj [("text", Json.str "123")])]

/-- A model class whose `__name__` equals the response-model name
synthesized for the method `get_user`, with no configured title. -/
def mResp : MRef := ⟨2, "mod_x", "GetUserResponse", none⟩

/-- A procedure listed before `get_user` in `dir` order whose parameter
references that class. -/
def fnAFetch : RpcFn := ⟨"a_fetch", [⟨"data", some (FTyp.ref mResp), false⟩], some FTyp.intT, none⟩

/-- The procedure `get_user` returning the `GetUserResponse` class, which
triggers the `_fix_model_name` retitling. -/
def fnGetUser9 : RpcFn := ⟨"get_user", [], some (FTyp.ref mResp), none⟩

/-- The handler on which discovery generation is not byte-idempotent. -/
def hC9 : Handler := ⟨[("a_fetch", fnAFetch), ("get_user", fnGetUser9)], none, none, none⟩

/-- The title state left behind by the first generation for `hC9`. -/
def tsAfterGen1 : TitleMap := ((discoverS hC9 []).toOption.map (fun p => p.2)).getD []

/-- The title state left behind by the second generation for `hC9`. -/
def tsAfterGen2 : TitleMap :=
  ((discoverS hC9 tsAfterGen1).toOption.map (fun p => p.2)).getD []

/-- The bytes of the first generation for `hC9`. -/
def c9bytes1 : String :=
  (((discoverS hC9 []).map (fun p => Json.render p.1)).toOption).getD ""

/-- The bytes of the second generation for `hC9`. -/
def c9bytes2 : String :=
  (((discoverS hC9 tsAfterGen1).map (fun p => Json.render p.1)).toOption).getD ""

/-- The bytes of the third generation for `hC9`. -/
def c9bytes3 : String :=
  (((discoverS hC9 tsAfterGen2).map (fun p => Json.render p.1)).toOption).getD ""

/-- The method table of `hReg`, as `_get_methods` returns it. -/
def msReg : List (String × RpcFn) := [("add_user", fnAddU), ("echo", fnEcho)]

/-- The document of a generation for `hReg` under the empty title state. -/
def docRegS : Json := ((discoverS hReg []).toOption.map (fun p => p.1)).getD Json.null

/-- The title state left behind by a generation for `hReg`. -/
def tsRegS : TitleMap := ((discoverS hReg []).toOption.map (fun p => p.2)).getD []

/-- The discovery document generated for `hReg`. -/
def docReg : Json := ((discoverCore hReg).toOption.map Prod.fst).getD Json.null

/-- The final model table of the generation for `hReg`. -/
def dReg : ModelDict := ((discoverCore hReg).toOption.map Prod.snd).getD emptyMD

/-- The discovery document generated for `hUser`. -/
def docUser : Json := ((discoverCore hUser).toOption.map Prod.fst).getD Json.null

/-- The final model table of the generation for `hUser`. -/
def dUser : ModelDict := ((discoverCore hUser).toOption.map Prod.snd).getD emptyMD

/-! ## Theorems -/

/-- C1: the claim states that when two distinct structured types share a
sanitized base name, both are demoted to fully-qualified long names and
the short name is retired.  The `ModelDict` that `discover` actually
uses cannot do this: its `__missing__` never records a short name in
`name_model_map`, so the collision branches are unreachable, and the
second type is assigned the same short name as the first; reference
pointers are likewise rendered with the short name.  The module-level
`_get_model_name_map` in the same file -- the routine whose policy the
spec describes -- does produce the two long names on the same input, so
the claim captures the intent and the `ModelDict` copy is the slip. -/
theorem c1_collision_code_bug :
    (mdGet emptyMD mA).1 = some "User"
    ∧ (mdGet (mdGet emptyMD mA).2 mB).1 = some "User"
    ∧ (mdGet (mdGet emptyMD mA).2 mB).2.entries = [(mA, "User"), (mB, "User")]
    ∧ (mdGet (mdGet emptyMD mA).2 mB).2.nmm = []
    ∧ (renderTyp "User" (FTyp.ref mB) (mdGet emptyMD mA).2).map (fun p => p.1)
        = Except.ok (Json.obj [("$ref", Json.str "#/components/schemas/User")])
    ∧ getModelNameMap [mA, mB] = [(mA, "mod_a__User"), (mB, "mod_b__User")] :=
  ⟨rfl, rfl, rfl, rfl, rfl, rfl⟩

set_option maxRecDepth 100000 in
/-- C9, counterexample: generating the discovery document twice from the
same unchanged registry is NOT byte-identical on every input.
`_fix_model_name` persistently retitles a model class whose `__name__`
equals its method's synthesized `{Camel}Response` name; when such a
class is also referenced by a method earlier in `dir` order, the first
generation registers it and renders its pointers under the pre-fix name
`GetUserResponse`, while the second generation -- same registry, fresh
`ModelDict`, but the surviving title write -- renders
`GetUserResponseResult`.  The third generation equals the second: the
title write is idempotent, so the output stabilizes after the first
generation. -/
theorem c9_counterexample :
    (discoverS hC9 []).map (fun p => Json.render p.1) = Except.ok c9bytes1
    ∧ (discoverS hC9 tsAfterGen1).map (fun p => Json.render p.1) = Except.ok c9bytes2
    ∧ c9bytes1 ≠ c9bytes2
    ∧ c9bytes2 = c9bytes3 :=
  ⟨rfl, rfl, by decide, rfl⟩

/-- The stateful method renderer changes the title state exactly by the
procedure's `_fix_model_name` write. -/
theorem getMethodS_state (ts : TitleMap) (d : ModelDict) (fn : RpcFn)
    (mj : Json) (d1 : ModelDict) (ts1 : TitleMap)
    (h : getMethodS ts d fn = Except.ok (mj, d1, ts1)) :
    ts1 = fixResponseTitle ts fn := by
  cases hrp : renderParamsS ts d fn.params with
  | error e => simp [getMethodS, hrp] at h
  | ok pr =>
    obtain ⟨pjs, dd1⟩ := pr
    cases hrr : renderResultS (fixResponseTitle ts fn) dd1 fn with
    | error e => simp [getMethodS, hrp, hrr] at h
    | ok pr2 =>
      obtain ⟨rs, dd2⟩ := pr2
      simp only [getMethodS, hrp, hrr, Except.ok.injEq, Prod.mk.injEq] at h
      exact h.2.2.symm

/-- When no procedure in the table triggers a `_fix_model_name` write,
stateful generation hands the title state back unchanged. -/
theorem getMethodsModelsS_state (ms : List (String × RpcFn)) :
    ∀ (d : ModelDict) (ts : TitleMap) (mjs : List Json) (d2 : ModelDict) (ts2 : TitleMap),
    (∀ kv ∈ ms, writeOf kv.2 = none) →
    getMethodsModelsS ms d ts = Except.ok (mjs, d2, ts2) → ts2 = ts := by
  induction ms with
  | nil =>
    intro d ts mjs d2 ts2 _ h
    simp only [getMethodsModelsS, Except.ok.injEq, Prod.mk.injEq] at h
    exact h.2.2.symm
  | cons x rest ih =>
    intro d ts mjs d2 ts2 hfix h
    obtain ⟨k, fn⟩ := x
    have hfx : fixResponseTitle ts fn = ts := by
      simp [fixResponseTitle, hfix (k, fn) (by simp)]
    cases hm : getMethodS ts d fn with
    | error e => simp [getMethodsModelsS, hm] at h
    | ok pr =>
      obtain ⟨mj, d1, ts1⟩ := pr
      have hts1 : ts1 = ts := by
        rw [getMethodS_state ts d fn mj d1 ts1 hm, hfx]
      cases hrest : getMethodsModelsS rest d1 ts1 with
      | error e => simp [getMethodsModelsS, hm, hrest] at h
      | ok pr2 =>
        obtain ⟨mjs1, d2x, ts2x⟩ := pr2
        simp only [getMethodsModelsS, hm, hrest, Except.ok.injEq, Prod.mk.injEq] at h
        rw [← h.2.2]
        exact (ih d1 ts1 mjs1 d2x ts2x (fun kv hkv => hfix kv (by simp [hkv])) hrest).trans hts1

/-- C9, amended: discovery generation is deterministic given the registry
and the current model-class titles, but `_fix_model_name` can
persistently retitle a response model class, so byte-identity between
the first and the second generation holds exactly on registries where
no such write fires: then generation leaves the title state unchanged
and the second generation returns the identical document and state.
(On retitling registries the first generation can differ from the
second, and the output stabilizes from the second generation onward, as
the counterexample also proves.) -/
theorem c9_idempotent_without_retitle (h : Handler) (ts : TitleMap)
    (ms : List (String × RpcFn)) (doc1 : Json) (ts1 : TitleMap)
    (hms : getMethods h = Except.ok ms)
    (hfix : ∀ kv ∈ ms, writeOf kv.2 = none)
    (h1 : discoverS h ts = Except.ok (doc1, ts1)) :
    ts1 = ts ∧ discoverS h ts1 = Except.ok (doc1, ts1) := by
  have hts : ts1 = ts := by
    cases hg : getMethodsModelsS ms emptyMD ts with
    | error e =>
      simp only [discoverS, discoverCoreS, hms, hg] at h1
      cases h1
    | ok pr =>
      obtain ⟨mjs, d0, tsx⟩ := pr
      simp only [discoverS, discoverCoreS, hms, hg, Except.map,
        Except.ok.injEq, Prod.mk.injEq] at h1
      rw [← h1.2]
      exact getMethodsModelsS_state ms emptyMD ts mjs d0 tsx hfix hg
  refine ⟨hts, ?_⟩
  subst hts
  exact h1

/-- C9, witness: the two-method handler with no model classes triggers no
title write, so a second generation returns the identical document and
state. -/
theorem c9_idempotent_without_retitle_witness :
    tsRegS = [] ∧ discoverS hReg tsRegS = Except.ok (docRegS, tsRegS) :=
  c9_idempotent_without_retitle hReg [] msReg docRegS tsRegS rfl
    (by
      intro kv hkv
      simp only [msReg, List.mem_cons, List.not_mem_nil, or_false] at hkv
      rcases hkv with rfl | rfl
      · rfl
      · rfl)
    rfl

/-- C3, counterexample: the claim says an *absent* return type also yields
an empty result schema.  It does not: a procedure with no return
annotation is given the response model `Any` (discover.py line 248),
which renders as a schema still carrying the auto-generated title, not
as the empty schema that a declared `None` return produces. -/
theorem c3_counterexample :
    renderResult emptyMD fnAbsentRet
      = Except.ok (Json.obj [("title", Json.str "Result")], emptyMD)
    ∧ fnAbsentRet.retTyp = none
    ∧ Json.obj [("title", Json.str "Result")] ≠ Json.obj [] := by
  refine ⟨rfl, rfl, ?_⟩
  intro h
  cases h

/-- C3, amended: a result ContentDescriptor carries the empty schema
exactly for a declared `None` return type (with no result-type
override); a declared result-type override always takes precedence; any
other declared return type renders through the schema generator; and an
*absent* return type is treated as `Any`, rendering a schema that still
carries the title `Result`. -/
theorem c3_result_schema (fn : RpcFn) (d : ModelDict) :
    (fn.respOverride = none → fn.retTyp = some FTyp.noneT →
       renderResult d fn = Except.ok (Json.obj [], d))
    ∧ (∀ t, fn.respOverride = none → fn.retTyp = some t → t ≠ FTyp.noneT →
       renderResult d fn = renderTyp "Result" t d)
    ∧ (∀ t, fn.respOverride = some t →
       renderResult d fn = renderTyp "Result" t d)
    ∧ (fn.respOverride = none → fn.retTyp = none →
       renderResult d fn = Except.ok (Json.obj [("title", Json.str "Result")], d)) := by
  refine ⟨?_, ?_, ?_, ?_⟩
  · intro h1 h2
    simp [renderResult, h1, h2]
  · intro t h1 h2 h3
    (cases t <;> simp [renderResult, h1, h2])
    exact absurd rfl h3
  · intro t h1
    simp [renderResult, h1]
  · intro h1 h2
    simp [renderResult, renderTyp, h1, h2]

/-- C3, witness: the amended theorem applied to a procedure with a
declared `None` return type gives the empty schema. -/
theorem c3_result_schema_witness :
    renderResult emptyMD fnNoneRet = Except.ok (Json.obj [], emptyMD) :=
  (c3_result_schema fnNoneRet emptyMD).1 rfl rfl

/-- The accumulating loop of `_get_methods` returns its input appended to
the accumulator whenever it succeeds. -/
theorem getMethodsGo_ok (l : List (String × RpcFn)) (acc ms : List (String × RpcFn))
    (h : getMethodsGo l acc = Except.ok ms) : ms = acc ++ l := by
  induction l generalizing acc with
  | nil =>
    simp only [getMethodsGo, Except.ok.injEq] at h
    simp [h]
  | cons x rest ih =>
    obtain ⟨k, fn⟩ := x
    unfold getMethodsGo at h
    by_cases hc : (acc.map (fun kv => kv.1)).contains fn.rpc_name = true
    · rw [if_pos hc] at h
      cases h
    · rw [if_neg hc] at h
      have := ih (acc ++ [(k, fn)]) h
      simpa using this

/-- A successfully rendered method descriptor carries its `__rpc_name__`
under the `name` key. -/
theorem getMethod_name (d : ModelDict) (fn : RpcFn) (mj : Json) (d2 : ModelDict)
    (h : getMethod d fn = Except.ok (mj, d2)) : nameOfMethodJson mj = some fn.rpc_name := by
  cases hp : renderParams d fn.params with
  | error e => simp [getMethod, hp] at h
  | ok pr =>
    obtain ⟨pjs, d1⟩ := pr
    cases hr : renderResult d1 fn with
    | error e => simp [getMethod, hp, hr] at h
    | ok rr =>
      obtain ⟨rs, d2x⟩ := rr
      simp only [getMethod, hp, hr, Except.ok.injEq, Prod.mk.injEq] at h
      obtain ⟨hmj, _⟩ := h
      subst hmj
      rfl

/-- Rendering a method table yields exactly one descriptor per method, in
table order, named by the corresponding `__rpc_name__`. -/
theorem getMethodsModels_names (ms : List (String × RpcFn)) (d : ModelDict)
    (mjs : List Json) (d2 : ModelDict)
    (h : getMethodsModels ms d = Except.ok (mjs, d2)) :
    mjs.filterMap nameOfMethodJson = ms.map (fun kv => kv.2.rpc_name) := by
  induction ms generalizing d mjs d2 with
  | nil =>
    simp only [getMethodsModels, Except.ok.injEq, Prod.mk.injEq] at h
    obtain ⟨h1, _⟩ := h
    subst h1
    rfl
  | cons x rest ih =>
    obtain ⟨k, fn⟩ := x
    cases hm : getMethod d fn with
    | error e => simp [getMethodsModels, hm] at h
    | ok pr =>
      obtain ⟨mj, d1⟩ := pr
      cases hrest : getMethodsModels rest d1 with
      | error e => simp [getMethodsModels, hm, hrest] at h
      | ok pr2 =>
        obtain ⟨mjs1, d2x⟩ := pr2
        simp only [getMethodsModels, hm, hrest, Except.ok.injEq, Prod.mk.injEq] at h
        obtain ⟨hmjs, _⟩ := h
        subst hmjs
        simp [List.filterMap_cons, getMethod_name d fn mj d1 hm, ih d1 mjs1 d2x hrest]

/-- C2, counterexample: the claim states that the discovery document lists
methods in registration order.  It does not: `_get_methods` iterates
`dir(handler)`, which enumerates attribute names in ascending
code-point order.  For a handler registering `echo` before `add_user`,
the generated document lists `add_user` first. -/
theorem c2_counterexample :
    hReg.attrs.map (fun kv => kv.2.rpc_name) = ["echo", "add_user"]
    ∧ (discover hReg).map methodNameStrs = Except.ok (some ["add_user", "echo"])
    ∧ (["add_user", "echo"] : List String) ≠ ["echo", "add_user"] := by
  refine ⟨rfl, rfl, ?_⟩
  decide

/-- C2, amended: for every registry, the discovery document lists its
method descriptors in ascending code-point order of the handler
attribute names (the `dir(handler)` enumeration order), not in
registration order. -/
theorem c2_methods_sorted (h : Handler) (doc : Json) (d : ModelDict)
    (hok : discoverCore h = Except.ok (doc, d)) :
    methodNameStrs doc = some ((dirSort h.attrs).map (fun kv => kv.2.rpc_name)) := by
  cases hm : getMethods h with
  | error e => simp [discoverCore, hm] at hok
  | ok ms =>
    cases hg : getMethodsModels ms emptyMD with
    | error e => simp [discoverCore, hm, hg] at hok
    | ok pr =>
      obtain ⟨mjs, d0⟩ := pr
      simp only [discoverCore, hm, hg, Except.ok.injEq, Prod.mk.injEq] at hok
      obtain ⟨hdoc, _⟩ := hok
      have hms : ms = dirSort h.attrs := by
        simpa using getMethodsGo_ok (dirSort h.attrs) [] ms hm
      have hnames := getMethodsModels_names ms emptyMD mjs d0 hg
      rw [hms] at hnames
      rw [← hnames]
      subst hdoc
      split
      · exact congrArg some rfl
      · exact congrArg some rfl

/-- C2, witness: the amended ordering theorem applied to the concrete
two-method handler. -/
theorem c2_methods_sorted_witness :
    methodNameStrs docReg = some ((dirSort hReg.attrs).map (fun kv => kv.2.rpc_name)) :=
  c2_methods_sorted hReg docReg dReg rfl

/-- Python-dict insertion never yields an empty dict. -/
theorem dinsert_ne_nil {α : Type} (l : List (String × α)) (k : String) (v : α) :
    dinsert l k v ≠ [] := by
  cases l with
  | nil => simp [dinsert]
  | cons x rest =>
    obtain ⟨k1, v1⟩ := x
    simp only [dinsert]
    split <;> simp

/-- Folding dict insertions over a non-empty starting dict keeps it
non-empty. -/
theorem foldl_dinsert_ne_nil (entries : List (MRef × String)) (acc : List (String × Json))
    (hacc : acc ≠ []) :
    entries.foldl (fun a kv => dinsert a kv.2 (topSchema kv.1)) acc ≠ [] := by
  induction entries generalizing acc with
  | nil => simpa using hacc
  | cons e rest ih => exact ih _ (dinsert_ne_nil _ _ _)

/-- The base field list of a discovery document holds no `components`
key. -/
theorem lookupA_components_base (a b c : Json) :
    lookupA [("openrpc", a), ("info", b), ("methods", c)] "components" = none := rfl

/-- Appending the `components` field makes it visible to lookup. -/
theorem lookupA_components_full (a b c x : Json) :
    lookupA [("openrpc", a), ("info", b), ("methods", c), ("components", x)]
      "components" = some x := rfl

/-- C10: the discovery document carries a `components` section exactly when
at least one structured type was registered in the schema name table
during generation (discover.py lines 66-69: the key is attached only
when the schemas dict is non-empty, and that dict has one entry per
name assigned in the `ModelDict`). -/
theorem c10_components_iff (h : Handler) (doc : Json) (d : ModelDict)
    (hok : discoverCore h = Except.ok (doc, d)) :
    (doc.getKey "components").isSome ↔ d.entries ≠ [] := by
  cases hm : getMethods h with
  | error e => simp [discoverCore, hm] at hok
  | ok ms =>
    cases hg : getMethodsModels ms emptyMD with
    | error e => simp [discoverCore, hm, hg] at hok
    | ok pr =>
      obtain ⟨mjs, d0⟩ := pr
      simp only [discoverCore, hm, hg, Except.ok.injEq, Prod.mk.injEq] at hok
      obtain ⟨rfl, rfl⟩ := hok
      cases hent : d0.entries with
      | nil =>
        simp [hent, Json.getKey, lookupA_components_base]
      | cons e rest =>
        have hpos :
            0 < (List.foldl (fun acc kv => dinsert acc kv.2 (topSchema kv.1))
                  (dinsert [] e.2 (topSchema e.1)) rest).length :=
          List.length_pos.mpr (foldl_dinsert_ne_nil rest _ (dinsert_ne_nil _ _ _))
        simp [hent, hpos, Json.getKey, lookupA_components_full]

/-- C10, witness: the components theorem applied to the one-method handler
whose result references a structured type. -/
theorem c10_components_iff_witness :
    (docUser.getKey "components").isSome ↔ dUser.entries ≠ [] :=
  c10_components_iff hUser docUser dUser rfl

/-- An element produces no response entry exactly when it is a well-formed
notification. -/
theorem handleElement_none_iff (reg : Registry) (e : Json) :
    handleElement reg e = none ↔ isNotifElem e = true := by
  unfold handleElement isNotifElem
  cases parseElement e with
  | invalid => simp
  | call c =>
    obtain ⟨cid, cm, cp⟩ := c
    cases cid <;> simp

/-- The batch response holds exactly one entry per non-notification
element. -/
theorem execBatch_length (reg : Registry) (es : List Json) :
    (execBatch reg es).length = (es.filter (fun x => !(isNotifElem x))).length := by
  induction es with
  | nil => rfl
  | cons e rest ih =>
    cases hn : isNotifElem e with
    | true =>
      have h0 : handleElement reg e = none := (handleElement_none_iff reg e).mpr hn
      simp only [execBatch, List.filterMap_cons, h0, List.filter_cons, hn] at ih ⊢
      simpa using ih
    | false =>
      have h0 : ¬ handleElement reg e = none := by
        intro hx
        have := (handleElement_none_iff reg e).mp hx
        rw [hn] at this
        cases this
      obtain ⟨v, hv⟩ := Option.ne_none_iff_exists'.mp h0
      simp only [execBatch, List.filterMap_cons, hv, List.filter_cons, hn] at ih ⊢
      simpa using ih

/-- C4: (spec-modelled) a batch response contains exactly one Outcome per
non-notification element, and batch execution distributes over the
elements: the entries contributed by the elements before and after any
given element are unchanged by it, so the failure of one call (raised
error, unknown method, or invalid element) never prevents its siblings
from being executed and answered, and the decoded order is preserved. -/
theorem c4_batch_order (reg : Registry) (es l1 l2 : List Json) (e : Json) :
    (execBatch reg es).length = (es.filter (fun x => !(isNotifElem x))).length
    ∧ execBatch reg (l1 ++ e :: l2)
        = execBatch reg l1 ++ (handleElement reg e).toList ++ execBatch reg l2 := by
  constructor
  · exact execBatch_length reg es
  · simp only [execBatch, List.filterMap_append, List.filterMap_cons]
    cases handleElement reg e <;> simp

/-- C5: (spec-modelled) a notification never contributes a response entry:
a single notification produces an empty response body, and so does a
non-empty batch consisting solely of notifications. -/
theorem c5_notifications_silent (reg : Registry) (j : Json) (es : List Json)
    (h1 : isNotifElem j = true) (h2 : ∀ e ∈ es, isNotifElem e = true) (h3 : es ≠ []) :
    execTop reg j = none ∧ execTop reg (Json.arr es) = none := by
  constructor
  · cases j with
    | null => simp [isNotifElem, parseElement] at h1
    | bool b => simp [isNotifElem, parseElement] at h1
    | num n => simp [isNotifElem, parseElement] at h1
    | str s => simp [isNotifElem, parseElement] at h1
    | arr xs => simp [isNotifElem, parseElement] at h1
    | obj fields =>
      unfold isNotifElem at h1
      cases hp : parseElement (Json.obj fields) with
      | invalid => rw [hp] at h1; cases h1
      | call c =>
        rw [hp] at h1
        cases hc : c.id with
        | none => simp [execTop, hp, hc]
        | some i => simp [hc] at h1
  · have hb : ∀ (l : List Json), (∀ e ∈ l, isNotifElem e = true) → execBatch reg l = [] := by
      intro l
      induction l with
      | nil => intro _; rfl
      | cons e rest ih =>
        intro hl
        have h0 : handleElement reg e = none :=
          (handleElement_none_iff reg e).mpr (hl e (by simp))
        have hr := ih (fun x hx => hl x (by simp [hx]))
        simp only [execBatch, List.filterMap_cons, h0] at hr ⊢
        exact hr
    have hemp : es.isEmpty = false := by
      cases es with
      | nil => exact absurd rfl h3
      | cons a t => rfl
    simp [execTop, hemp, hb es h2]

/-- C5, witness: a concrete notification and a concrete two-element
all-notification batch both produce an empty body. -/
theorem c5_notifications_silent_witness :
    execTop regEcho jNotif1 = none
    ∧ execTop regEcho (Json.arr [jNotif1, jNotif2]) = none :=
  c5_notifications_silent regEcho jNotif1 [jNotif1, jNotif2] rfl
    (by
      intro e he
      simp only [List.mem_cons, List.not_mem_nil, or_false] at he
      rcases he with rfl | rfl
      · rfl
      · rfl)
    (by simp)

/-- C6: (spec-modelled) an invoked procedure raising an error that matches
no registered variant yields an error Outcome with code -32000 and the
error message as the message; when the raised error carries a
two-element payload, the second positional element becomes the `data`
field. -/
theorem c6_undeclared_error (reg : Registry) (c : Call) (p : Proc)
    (args : List (String × Json))
    (hl : lookupA reg.procs c.method = some p)
    (hb : bind p.specs c.params = Except.ok args) :
    (∀ m, p.run args = InvokeResult.raised m →
       runCall reg c = CallResult.err (-32000) m none)
    ∧ (∀ m dd, p.run args = InvokeResult.raisedData m dd →
       runCall reg c = CallResult.err (-32000) m (some dd)) := by
  constructor
  · intro m hr
    simp [runCall, hl, hb, hr]
  · intro m dd hr
    simp [runCall, hl, hb, hr]

/-- C6, witness: the concrete `err` procedure raising `('Ex', 'some data')`
maps to code -32000, message `Ex` and data `some data`, as in
test_error_with_data. -/
theorem c6_undeclared_error_witness :
    runCall regErr cErr = CallResult.err (-32000) "Ex" (some (Json.str "some data")) :=
  (c6_undeclared_error regErr cErr pErr [] rfl rfl).2 "Ex" (Json.str "some data") rfl

/-- C7: (spec-modelled) a positional parameter list longer than the
declared parameter count makes binding fail, and the dispatcher answers
with code -32602, message `Invalid params` and an info string stating
the declared arity versus the given count. -/
theorem c7_too_many_positional (reg : Registry) (c : Call) (p : Proc) (l : List Json)
    (hl : lookupA reg.procs c.method = some p)
    (hp : c.params = Params.byPos l)
    (hgt : p.specs.length < l.length) :
    runCall reg c = CallResult.err (-32602) "Invalid params"
      (some (Json.obj [("info", Json.str
        ("Method takes " ++ toString p.specs.length ++
         " positional arguments but " ++ toString l.length ++
         (if l.length == 1 then " was" else " were") ++ " given"))])) := by
  have hb : bind p.specs c.params
      = Except.error (BindError.tooMany p.specs.length l.length) := by
    rw [hp]
    simp [bind, bindPos, hgt]
  simp [runCall, hl, hb, bindErrorMsg]

/-- C7, witness: calling the two-parameter `sum` with three positional
arguments yields exactly the info string of the tests. -/
theorem c7_too_many_positional_witness :
    runCall regSum cSum = CallResult.err (-32602) "Invalid params"
      (some (Json.obj [("info",
        Json.str "Method takes 2 positional arguments but 3 were given")])) := by
  rw [c7_too_many_positional regSum cSum pSum [Json.num 1, Json.num 2, Json.num 3]
    rfl rfl (by decide)]
  rfl

/-- C8: (spec-modelled) a legacy v2 request (top-level `params` key, no
`jsonrpc` key) is answered through the legacy v2 envelope: a success
serializes as code 0, message `OK` and the result; an error serializes
its code and message with the error data under the `details` key. -/
theorem c8_legacy_v2 (reg : Registry) (fields : List (String × Json)) (m : String)
    (pj : Json) (ps : Params)
    (hjr : lookupA fields "jsonrpc" = none)
    (hm : lookupA fields "method" = some (Json.str m))
    (hp : lookupA fields "params" = some pj)
    (hps : decodeParams (some pj) = some ps) :
    execTop reg (Json.obj fields) = some (serializeLegacyV2 (runCall reg ⟨none, m, ps⟩))
    ∧ (∀ v, serializeLegacyV2 (CallResult.okr v)
        = Json.obj [("code", Json.num 0), ("message", Json.str "OK"), ("result", v)])
    ∧ (∀ code msg dd, serializeLegacyV2 (CallResult.err code msg (some dd))
        = Json.obj [("code", Json.num code), ("message", Json.str msg), ("details", dd)]) := by
  refine ⟨?_, fun v => rfl, fun code msg dd => rfl⟩
  have hpe : parseElement (Json.obj fields) = Elem.invalid := by
    simp [parseElement, hjr]
  simp [execTop, hpe, hjr, hm, hp, hps]

/-- C8, witness: the legacy v2 request of the tests is dispatched through
the legacy v2 serializer. -/
theorem c8_legacy_v2_witness :
    execTop regEcho (Json.obj fields8)
      = some (serializeLegacyV2 (runCall regEcho
          ⟨none, "echo", Params.byName [("text", Json.str "123")]⟩)) :=
  (c8_legacy_v2 regEcho fields8 "echo" (Json.obj [("text", Json.str "123")])
    (Params.byName [("text", Json.str "123")]) rfl rfl rfl rfl).1

end Ipapp
